import Mathlib

/-!
Verification of the ORBIT operation encoding/validation core
(`ag.orbit.ops.Abstract`): text framing around the reserved separator
byte `0xFF`, text-safety classifiers, URI acceptability tiers, range
validators, the compact address codec, and operation equality.

Texts are modelled as lists of Unicode code points (`List Char`), byte
strings as `List Nat` with each element below 256, and raised Python
exceptions as `Except`/`Option` failures.
-/

namespace Orbit

/-- The class constant `SEPARATOR = b'\xFF'`: a one-byte bytes object. -/
def SEPARATOR : List Nat := [255]

/-- Python `==` between an `int` and a `bytes` value: cross-type equality
in Python never falls back to contents, so it is identically `False`.
The source compares each byte `b` (an `int`) against `cls.SEPARATOR`
(a `bytes` object), so that comparison can never succeed. -/
def pyIntEqBytes (_b : Nat) (_s : List Nat) : Bool := false

/-- UTF-8 encoding of a single code point (CPython `str.encode('utf-8')`
per character). Valid code points only produce bytes below `0xF5`. -/
def utf8EncodeChar (c : Nat) : List Nat :=
  if c < 0x80 then [c]
  else if c < 0x800 then [0xC0 + c / 0x40, 0x80 + c % 0x40]
  else if c < 0x10000 then
    [0xE0 + c / 0x1000, 0x80 + c / 0x40 % 0x40, 0x80 + c % 0x40]
  else
    [0xF0 + c / 0x40000, 0x80 + c / 0x1000 % 0x40, 0x80 + c / 0x40 % 0x40,
      0x80 + c % 0x40]

/-- Python `text.encode('utf-8')` (the class constant `ENCODING = 'utf-8'`). -/
def utf8Encode (text : List Char) : List Nat :=
  text.flatMap (fun c => utf8EncodeChar c.toNat)

/-- Two-byte UTF-8 tail: lead byte `b0` in `[0xC2, 0xDF]`. -/
def utf8DecodeTail1 (b0 : Nat) : List Nat → Option (Nat × List Nat)
  | b1 :: rest =>
    if 0x80 ≤ b1 ∧ b1 < 0xC0 then some ((b0 - 0xC0) * 0x40 + (b1 - 0x80), rest)
    else none
  | [] => none

/-- Three-byte UTF-8 tail: lead byte `b0` in `[0xE0, 0xEF]`; rejects
overlong forms and surrogate code points. -/
def utf8DecodeTail2 (b0 : Nat) : List Nat → Option (Nat × List Nat)
  | b1 :: b2 :: rest =>
    if (0x80 ≤ b1 ∧ b1 < 0xC0) ∧ (0x80 ≤ b2 ∧ b2 < 0xC0) then
      let c := (b0 - 0xE0) * 0x1000 + (b1 - 0x80) * 0x40 + (b2 - 0x80)
      if c < 0x800 ∨ (0xD800 ≤ c ∧ c < 0xE000) then none else some (c, rest)
    else none
  | _ => none

/-- Four-byte UTF-8 tail: lead byte `b0` in `[0xF0, 0xF4]`; rejects
overlong forms and code points above `0x10FFFF`. -/
def utf8DecodeTail3 (b0 : Nat) : List Nat → Option (Nat × List Nat)
  | b1 :: b2 :: b3 :: rest =>
    if (0x80 ≤ b1 ∧ b1 < 0xC0) ∧ (0x80 ≤ b2 ∧ b2 < 0xC0) ∧ (0x80 ≤ b3 ∧ b3 < 0xC0) then
      let c := (b0 - 0xF0) * 0x40000 + (b1 - 0x80) * 0x1000 +
        (b2 - 0x80) * 0x40 + (b3 - 0x80)
      if c < 0x10000 ∨ 0x110000 ≤ c then none else some (c, rest)
    else none
  | _ => none

/-- Decode one UTF-8 scalar from the front of the buffer, strict mode:
`none` on a truncated sequence, stray continuation byte, overlong form,
surrogate, or lead byte above `0xF4`. -/
def utf8DecodeOne : List Nat → Option (Nat × List Nat)
  | [] => none
  | b0 :: rest =>
    if b0 < 0x80 then some (b0, rest)
    else if b0 < 0xC2 then none
    else if b0 < 0xE0 then utf8DecodeTail1 b0 rest
    else if b0 < 0xF0 then utf8DecodeTail2 b0 rest
    else if b0 < 0xF5 then utf8DecodeTail3 b0 rest
    else none

/-- Fuel-driven decoding loop. Each successful `utf8DecodeOne` step
consumes at least one byte, so fuel equal to the buffer length never
runs out. -/
def utf8DecodeLoop : Nat → List Nat → Option (List Nat)
  | _, [] => some []
  | 0, _ :: _ => none
  | fuel + 1, b :: rest =>
    match utf8DecodeOne (b :: rest) with
    | none => none
    | some (c, rest1) => (utf8DecodeLoop fuel rest1).map (fun t => c :: t)

/-- Strict UTF-8 decoding, `bytes.decode('utf-8')` (a CPython builtin,
modelled here): rejects truncated sequences, stray continuation bytes,
overlong forms, surrogates and code points above `0x10FFFF`; `none`
models a raised `UnicodeDecodeError`. -/
def utf8Decode (data : List Nat) : Option (List Nat) :=
  utf8DecodeLoop data.length data

/-- Python `text.encode('ascii')`: succeeds exactly when every code point is
below 128, mapping each code point to itself; `none` models a raised
`UnicodeEncodeError`. -/
def asciiEncode (text : List Char) : Option (List Nat) :=
  if text.all (fun c => decide (c.toNat < 128)) then some (text.map Char.toNat)
  else none

/-- Python `data.find(sep_byte)`: index of the first occurrence, `none` for the
Python return value `-1`. -/
def findByte (sep : Nat) : List Nat → Option Nat
  | [] => none
  | b :: rest => if b = sep then some 0 else (findByte sep rest).map (· + 1)

/-- Source `Abstract.read_text(data)` with the default encoding:
```
done = False
end = data.find(cls.SEPARATOR)
if end < 0:
    done = True
    end = len(data)
elif end == 0:
    return (None, 0, False)
return (data[:end].decode(encoding), end, done)
```
The outer `Option` models a raised decode error. Note that `done`
stays `False` whenever the separator is found, also at `end > 0`. -/
def read_text (data : List Nat) : Option (Option (List Nat) × Nat × Bool) :=
  match findByte 255 data with
  | none => (utf8Decode data).map (fun t => (some t, data.length, true))
  | some e =>
    if e = 0 then some (none, 0, false)
    else (utf8Decode (data.take e)).map (fun t => (some t, e, false))

/-- Source `Abstract.has_unicode_type(text, types)`: `unicodedata.category` is
external data, passed in as the `category` map. -/
def has_unicode_type (category : Char → String) (text : List Char)
    (types : List String) : Bool :=
  text.any (fun c => types.any (fun t => (category c).startsWith t))

/-- Source `Abstract.is_safe_unicode(text, forbidden_types)`: scans the UTF-8
bytes comparing each `int` byte to the `bytes` object `SEPARATOR`
(a comparison that is always `False` in Python), then requires no
forbidden Unicode category. -/
def is_safe_unicode (category : Char → String) (text : List Char)
    (forbidden_types : List String) : Bool :=
  if (utf8Encode text).any (fun b => pyIntEqBytes b SEPARATOR) then false
  else !(has_unicode_type category text forbidden_types)

/-- Source `Abstract.is_safe_ascii(text)`: encode as ASCII (a raised
`UnicodeEncodeError` is caught and yields `False`), then require every
byte in `[32, 126]` and different from `SEPARATOR` (again an
`int`-vs-`bytes` comparison). -/
def is_safe_ascii (text : List Char) : Bool :=
  match asciiEncode text with
  | none => false
  | some btext =>
    btext.all (fun b => !(decide (b < 32) || decide (126 < b) || pyIntEqBytes b SEPARATOR))

/-- Modelled from the spec: the external `rfc3986` URI-reference parser
produces a record of components; only scheme, host and path matter to
the two-tier checks. `none` is an absent component. -/
structure UriRef where
  scheme : Option String
  host : Option String
  path : Option String
deriving DecidableEq

/-- Modelled from the spec: an `rfc3986` `Validator` configured with
`require_presence_of(...)` and optionally `allow_schemes(...)`. -/
structure Validator where
  require_scheme : Bool
  require_host : Bool
  require_path : Bool
  allowed_schemes : Option (List String)

/-- Modelled from the spec: `Validator.validate(uri)` succeeds (here:
returns `true`) exactly when each required component is present and,
when a scheme restriction was configured, the scheme is in the allowed
list; a raised validation error is `false`. -/
def Validator.accepts (v : Validator) (u : UriRef) : Bool :=
  (!v.require_scheme || u.scheme.isSome) &&
  (!v.require_host || u.host.isSome) &&
  (!v.require_path || u.path.isSome) &&
  (match v.allowed_schemes with
   | none => true
   | some l => l.contains (u.scheme.getD ("")))

/-- Source `Validator().require_presence_of('scheme', 'host')`. -/
def link_uri_validator_1 : Validator := ⟨true, true, false, none⟩

/-- Source `Validator().require_presence_of('scheme', 'path')`. -/
def link_uri_validator_2 : Validator := ⟨true, false, true, none⟩

/-- Source `Validator().require_presence_of('scheme', 'host', 'path').allow_schemes('http', 'https')`. -/
def src_uri_validator_1 : Validator := ⟨true, true, true, some ["http", "https"]⟩

/-- Source `Validator().require_presence_of('scheme', 'path').allow_schemes('data')`. -/
def src_uri_validator_2 : Validator := ⟨true, false, true, some ["data"]⟩

/-- Source `Abstract.is_link_uri(text)`: requires `is_safe_ascii`, then tier 1;
on a raised tier-1 error, tier 2; on a raised tier-2 error, `False`.
`uriRef` is the external `rfc3986.uri_reference` parser. -/
def is_link_uri (uriRef : List Char → UriRef) (text : List Char) : Bool :=
  if is_safe_ascii text = false then false
  else
    if link_uri_validator_1.accepts (uriRef text) then true
    else if link_uri_validator_2.accepts (uriRef text) then true
    else false

/-- Source `Abstract.is_src_uri(text)`: same shape with the `src` validators. -/
def is_src_uri (uriRef : List Char → UriRef) (text : List Char) : Bool :=
  if is_safe_ascii text = false then false
  else
    if src_uri_validator_1.accepts (uriRef text) then true
    else if src_uri_validator_2.accepts (uriRef text) then true
    else false

/-- Source `Abstract.validate_range(name, value, minval, maxval, optional)`:
`None` is the absent value; a raised `ValueError` is `.error`. -/
def validate_range (name : String) (value : Option Int) (minval maxval : Int)
    (optional : Bool) : Except String (Option Int) :=
  if optional = false ∧ value ≠ none then
    if value.getD 0 < minval ∨ maxval < value.getD 0 then
      .error (name ++ " is out of range: supplied=" ++ toString (value.getD 0) ++
        ", min=" ++ toString minval ++ ", max=" ++ toString maxval)
    else .ok value
  else .ok value

/-- Source `Abstract.validate_range_bytesize(name, value, size, optional,
allow_zero, signed)`. The zero check `value == 0 and not allow_zero`
runs first and compares against the non-absent value only (`None == 0`
is `False` in Python). The bounds are always the signed two's-complement
bounds for `size` bytes; the `signed` parameter is never read.
(`size ≥ 1` assumed: Python's `2**(8*size-1)` is fractional at
`size = 0`, outside this model.) -/
def validate_range_bytesize (name : String) (value : Option Int) (size : Nat)
    (optional allow_zero signed : Bool) : Except String (Option Int) :=
  if value = some 0 ∧ allow_zero = false then .error (name ++ " may not be zero")
  else if optional = false ∧ value ≠ none then
    if value.getD 0 < 0 - 2 ^ (8 * size - 1) ∨
        (2 : Int) ^ (8 * size - 1) - 1 < value.getD 0 then
      .error (name ++ " is out of range: supplied=" ++ toString (value.getD 0) ++
        ", min=" ++ toString (0 - (2 : Int) ^ (8 * size - 1)) ++ ", max=" ++
        toString ((2 : Int) ^ (8 * size - 1) - 1) ++
        (if allow_zero = false then ", zero is not allowed" else ""))
    else .ok value
  else .ok value

/-- Modelled from the spec: the external `cashaddress` library, reduced
to the three primitives the spec names — `is_valid`, `parse` (an address
string to its single-byte version code and payload bytes) and `format`
(the inverse rendering, `Address(version, payload).cash_address()`). -/
structure AddressLib where
  is_valid : String → Bool
  parse : String → Nat × List Nat
  format : Nat → List Nat → String

/-- Source `Abstract.validate_address(name, address)`. -/
def validate_address (lib : AddressLib) (name : String) (address : String) :
    Except String String :=
  if lib.is_valid address = false then
    .error (name ++ " is not a valid bitcoincash address")
  else .ok address

/-- Python `int.to_bytes(1, 'big')`: one byte, raising `OverflowError`
(here `none`) when the value does not fit. -/
def intToBytes1 (n : Nat) : Option (List Nat) :=
  if n < 256 then some [n] else none

/-- Source `Abstract.serialize_address(address)`: version byte, then payload
length byte, then the payload. -/
def serialize_address (lib : AddressLib) (address : String) : Option (List Nat) :=
  match intToBytes1 (lib.parse address).1, intToBytes1 (lib.parse address).2.length with
  | some ver, some len => some (ver ++ len ++ (lib.parse address).2)
  | _, _ => none

/-- Source `Abstract.deserialize_address(data)`:
```
if len(data) < 2: raise ValueError('Not enough data reading address version/length')
addr_ver = int.from_bytes(data[0:1], 'big')
addr_len = int.from_bytes(data[1:2], 'big')
if len(data) < addr_len + 2: raise ValueError('Not enough data reading address')
address = Address(addr_ver, list(data[2:addr_len+2])).cash_address()
return (address, data[2+addr_len:])
```
`data.headD 0` is `data[0]` and `(data.drop 1).headD 0` is `data[1]`
(both guarded by the length check). -/
def deserialize_address (lib : AddressLib) (data : List Nat) :
    Except String (String × List Nat) :=
  if data.length < 2 then .error ("Not enough data reading address version/length")
  else if data.length < (data.drop 1).headD 0 + 2 then
    .error ("Not enough data reading address")
  else
    .ok (lib.format (data.headD 0) ((data.drop 2).take ((data.drop 1).headD 0)),
      data.drop (2 + (data.drop 1).headD 0))

/-- A Python object as `Abstract.__eq__` sees it: its class and its
attribute dictionary `__dict__`. `K` is the process's class hierarchy,
`V` the type of attribute dictionaries. -/
structure PyObj (K : Type) (V : Type) where
  cls : K
  dict : V

/-- Source `Abstract.__eq__`: `isinstance(other, self.__class__) or
isinstance(self, other.__class__)`, then `self.__dict__ == other.__dict__`;
`False` otherwise. `issub a b` models `isinstance`: class `a` is `b`
or a subclass of `b`. -/
def opEq {K V : Type} [DecidableEq V] (issub : K → K → Bool)
    (x y : PyObj K V) : Bool :=
  if issub x.cls y.cls || issub y.cls x.cls then decide (x.dict = y.dict)
  else false

/-- Source `Abstract.__ne__`: `not self.__eq__(other)`. -/
def opNe {K V : Type} [DecidableEq V] (issub : K → K → Bool)
    (x y : PyObj K V) : Bool :=
  !(opEq issub x y)

/-- Everything-accepting toy address library satisfying the round-trip
contract at the single address string used by the witnesses. -/
def sampleLib : AddressLib :=
  ⟨fun _ => true, fun _ => (0, [1, 2]), fun _ _ => "addr"⟩

/-- A fixed parse result with scheme `"ftp"`, no host, and a path, for
the C8 witness. -/
def uriRefFtp : List Char → UriRef := fun _ => ⟨some ("ftp"), none, some ("/x")⟩

/-! Helper lemmas -/

/-- Every `Char` carries a valid Unicode scalar value. -/
theorem char_toNat_valid (c : Char) :
    c.toNat < 0xD800 ∨ (0xDFFF < c.toNat ∧ c.toNat < 0x110000) := by
  have h := c.valid
  unfold UInt32.isValidChar Nat.isValidChar at h
  exact h

/-- UTF-8 never emits the separator byte `0xFF` for any code point
below `0x110000` (every emitted byte is below `0xF5`). -/
theorem utf8EncodeChar_ne_sep {n : Nat} (hn : n < 0x110000) :
    ∀ b ∈ utf8EncodeChar n, b ≠ 255 := by
  intro b hb
  unfold utf8EncodeChar at hb
  split_ifs at hb with h1 h2 h3 <;> simp only [List.mem_cons, List.not_mem_nil, or_false] at hb
  · omega
  · rcases hb with rfl | rfl <;> omega
  · rcases hb with rfl | rfl | rfl <;> omega
  · rcases hb with rfl | rfl | rfl | rfl <;> omega

/-- The separator byte never occurs in the UTF-8 encoding of a text. -/
theorem utf8Encode_ne_sep (T : List Char) : ∀ b ∈ utf8Encode T, b ≠ 255 := by
  induction T with
  | nil => simp [utf8Encode]
  | cons c rest ih =>
    intro b hb
    simp only [utf8Encode, List.flatMap_cons, List.mem_append] at hb
    rcases hb with hb | hb
    · have hc : c.toNat < 0x110000 := by rcases char_toNat_valid c with h | h <;> omega
      exact utf8EncodeChar_ne_sep hc b hb
    · exact ih b hb

/-- The UTF-8 encoding of a code point is never empty. -/
theorem utf8EncodeChar_ne_nil (n : Nat) : utf8EncodeChar n ≠ [] := by
  unfold utf8EncodeChar
  split_ifs <;> simp

/-- Python `find` locates an appended separator right after separator-free data. -/
theorem findByte_append_sep (l : List Nat) (h : ∀ b ∈ l, b ≠ 255) :
    findByte 255 (l ++ [255]) = some l.length := by
  induction l with
  | nil => simp [findByte]
  | cons b rest ih =>
    have hb : b ≠ 255 := h b (by simp)
    simp only [List.cons_append, findByte, if_neg hb, List.append_eq,
      ih (fun x hx => h x (by simp [hx])), Option.map_some', List.length_cons]

/-- Taking back the left part of an append. -/
theorem take_length_append (l l' : List Nat) : (l ++ l').take l.length = l := by
  induction l with
  | nil => simp
  | cons b rest ih => simp [ih]

/-- Decoding one scalar undoes encoding one scalar, for any valid
code point. -/
theorem utf8DecodeOne_encodeChar (c : Char) (rest : List Nat) :
    utf8DecodeOne (utf8EncodeChar c.toNat ++ rest) = some (c.toNat, rest) := by
  have hv := char_toNat_valid c
  set n := c.toNat with hn
  by_cases h1 : n < 0x80
  · rw [utf8EncodeChar, if_pos h1]
    simp only [List.cons_append, List.nil_append, utf8DecodeOne, if_pos h1]
  · by_cases h2 : n < 0x800
    · rw [utf8EncodeChar, if_neg h1, if_pos h2]
      simp only [List.cons_append, List.nil_append, utf8DecodeOne, utf8DecodeTail1]
      rw [if_neg (by omega), if_neg (by omega), if_pos (by omega),
        if_pos (by constructor <;> omega)]
      have he : (0xC0 + n / 0x40 - 0xC0) * 0x40 + (0x80 + n % 0x40 - 0x80) = n := by
        omega
      rw [he]
    · by_cases h3 : n < 0x10000
      · rw [utf8EncodeChar, if_neg h1, if_neg h2, if_pos h3]
        simp only [List.cons_append, List.nil_append, utf8DecodeOne, utf8DecodeTail2]
        rw [if_neg (by omega), if_neg (by omega), if_neg (by omega),
          if_pos (by omega), if_pos (by refine ⟨⟨?_, ?_⟩, ?_, ?_⟩ <;> omega)]
        have he : (0xE0 + n / 0x1000 - 0xE0) * 0x1000 +
            (0x80 + n / 0x40 % 0x40 - 0x80) * 0x40 + (0x80 + n % 0x40 - 0x80) = n := by
          omega
        rw [he, if_neg (by omega)]
      · have h4 : n < 0x110000 := by omega
        rw [utf8EncodeChar, if_neg h1, if_neg h2, if_neg h3]
        simp only [List.cons_append, List.nil_append, utf8DecodeOne, utf8DecodeTail3]
        rw [if_neg (by omega), if_neg (by omega), if_neg (by omega),
          if_neg (by omega), if_pos (by omega),
          if_pos (by refine ⟨⟨?_, ?_⟩, ⟨?_, ?_⟩, ?_, ?_⟩ <;> omega)]
        have he : (0xF0 + n / 0x40000 - 0xF0) * 0x40000 +
            (0x80 + n / 0x1000 % 0x40 - 0x80) * 0x1000 +
            (0x80 + n / 0x40 % 0x40 - 0x80) * 0x40 + (0x80 + n % 0x40 - 0x80) = n := by
          omega
        rw [he, if_neg (by omega)]

/-- The decoding loop inverts encoding given enough fuel. -/
theorem utf8DecodeLoop_encode (T : List Char) :
    ∀ fuel, (utf8Encode T).length ≤ fuel →
      utf8DecodeLoop fuel (utf8Encode T) = some (T.map Char.toNat) := by
  induction T with
  | nil =>
    intro fuel _
    cases fuel <;> rfl
  | cons c rest ih =>
    intro fuel hfuel
    obtain ⟨b, bs, hb⟩ : ∃ b bs, utf8EncodeChar c.toNat = b :: bs := by
      cases h : utf8EncodeChar c.toNat with
      | nil => exact absurd h (utf8EncodeChar_ne_nil _)
      | cons x xs => exact ⟨x, xs, rfl⟩
    have henc : utf8Encode (c :: rest) = b :: (bs ++ utf8Encode rest) := by
      rw [utf8Encode, List.flatMap_cons, hb, List.cons_append]
      rfl
    rw [henc] at hfuel ⊢
    obtain ⟨fuel', rfl⟩ : ∃ f, fuel = f + 1 := by
      cases fuel with
      | zero => simp at hfuel
      | succ f => exact ⟨f, rfl⟩
    rw [utf8DecodeLoop, ← List.cons_append, ← hb, utf8DecodeOne_encodeChar]
    show Option.map (fun t => c.toNat :: t) (utf8DecodeLoop fuel' (utf8Encode rest)) =
      some (List.map Char.toNat (c :: rest))
    rw [ih fuel' (by simp only [List.length_cons, List.length_append] at hfuel; omega)]
    rfl

/-- Strict UTF-8 decoding inverts encoding. -/
theorem utf8Decode_utf8Encode (T : List Char) :
    utf8Decode (utf8Encode T) = some (T.map Char.toNat) :=
  utf8DecodeLoop_encode T _ le_rfl

/-! Claims -/

/-- C1 (corrected): for a text `T` accepted by `is_safe_unicode`,
`read_text` on `encode(T)` followed by the separator byte decodes `T`
back and consumes exactly `len(encode(T))` bytes (the separator is left
unconsumed), but the completion flag is `False`, not `True`: the source
sets `done = True` only when the separator is absent. For the empty
text (also accepted) the result is `(None, 0, False)`. -/
theorem claim_C1 (category : Char → String) (T : List Char) (forb : List String)
    (hsafe : is_safe_unicode category T forb = true) :
    read_text (utf8Encode T ++ [255]) =
      if T = [] then some (none, 0, false)
      else some (some (T.map Char.toNat), (utf8Encode T).length, false) := by
  cases T with
  | nil => simp [utf8Encode, read_text, findByte]
  | cons c rest =>
    rw [if_neg (by simp)]
    have hfind := findByte_append_sep (utf8Encode (c :: rest)) (utf8Encode_ne_sep _)
    have hlen : (utf8Encode (c :: rest)).length ≠ 0 := by
      rw [utf8Encode, List.flatMap_cons, List.length_append]
      rcases h : utf8EncodeChar c.toNat with _ | ⟨x, xs⟩
      · exact absurd h (utf8EncodeChar_ne_nil _)
      · simp
    unfold read_text
    rw [hfind]
    show (if (utf8Encode (c :: rest)).length = 0 then some (none, 0, false)
      else (utf8Decode ((utf8Encode (c :: rest) ++ [255]).take
          (utf8Encode (c :: rest)).length)).map
        (fun t => (some t, (utf8Encode (c :: rest)).length, false))) = _
    rw [if_neg hlen, take_length_append, utf8Decode_utf8Encode]
    rfl

/-- C1 witness: the single character `'A'` is accepted and framed as
claimed (with completion flag `False`). -/
theorem claim_C1_witness :
    read_text (utf8Encode ['A'] ++ [255]) =
      if (['A'] : List Char) = [] then some (none, 0, false)
      else some (some (['A'].map Char.toNat), (utf8Encode ['A']).length, false) :=
  claim_C1 (fun _ => "") ['A'] [] (by decide)

/-- C1 counterexample: `'A'` is accepted by `is_safe_unicode` (empty
forbidden set), yet `read_text(encode('A') + b'\xFF')` returns
`('A', 1, False)` and not the claimed `('A', 1, True)`. -/
theorem claim_C1_counterexample :
    is_safe_unicode (fun _ => "") ['A'] [] = true ∧
    read_text (utf8Encode ['A'] ++ [255]) = some (some [65], 1, false) ∧
    read_text (utf8Encode ['A'] ++ [255]) ≠ some (some [65], 1, true) :=
  ⟨by decide, by decide, by decide⟩

/-- C2 (corrected): `read_text(b'')` returns `('', 0, True)`: the text
component is the empty string (the whole empty buffer decoded), not the
absent value `None`; zero bytes are consumed and the completion flag is
true. -/
theorem claim_C2 : read_text [] = some (some [], 0, true) := by decide

/-- C2 counterexample: on the empty buffer the text component is the
empty string `some []`, not the absent value `none` the claim states. -/
theorem claim_C2_counterexample :
    read_text [] = some (some ([] : List Nat), 0, true) ∧
    read_text [] ≠ some (none, 0, true) :=
  ⟨by decide, by decide⟩

/-- C3: a text accepted by `is_safe_ascii` has every ASCII byte inside
`[32, 126]`, hence never `0xFF`; and the UTF-8 encoding of any text
(in particular one accepted by `is_safe_unicode`) never contains the
byte `0xFF`. -/
theorem claim_C3 (category : Char → String) (T : List Char) (forb : List String) :
    (is_safe_ascii T = true → ∀ bs, asciiEncode T = some bs → (255 : Nat) ∉ bs) ∧
    (is_safe_unicode category T forb = true → (255 : Nat) ∉ utf8Encode T) := by
  constructor
  · intro _ bs hbs hmem
    rw [asciiEncode] at hbs
    by_cases hall : T.all (fun c => decide (c.toNat < 128))
    · rw [if_pos hall] at hbs
      cases hbs
      simp only [List.mem_map] at hmem
      obtain ⟨c, hc, hc255⟩ := hmem
      have hlt := List.all_eq_true.mp hall c hc
      simp only [decide_eq_true_eq] at hlt
      omega
    · rw [if_neg hall] at hbs
      cases hbs
  · intro _ hmem
    exact utf8Encode_ne_sep T 255 hmem rfl

/-- C3 witness: the byte `0xFF` does not occur in the UTF-8 encoding
of the accepted text `'A'`. -/
theorem claim_C3_witness : (255 : Nat) ∉ utf8Encode ['A'] :=
  (claim_C3 (fun _ => "") ['A'] []).2 (by decide)

/-- C9: `is_safe_ascii(text)` is true iff the text encodes in strict
7-bit ASCII and every encoded byte lies in `[32, 126]` and differs from
the separator byte; unencodable text yields `false` (the raised
`UnicodeEncodeError` is caught). -/
theorem claim_C9 (T : List Char) :
    is_safe_ascii T = true ↔
      ∃ bs, asciiEncode T = some bs ∧ ∀ b ∈ bs, 32 ≤ b ∧ b ≤ 126 ∧ b ≠ 255 := by
  by_cases hall : T.all (fun c => decide (c.toNat < 128))
  · have henc : asciiEncode T = some (T.map Char.toNat) := by
      rw [asciiEncode, if_pos hall]
    unfold is_safe_ascii
    rw [henc]
    show (T.map Char.toNat).all
        (fun b => !(decide (b < 32) || decide (126 < b) || pyIntEqBytes b SEPARATOR)) =
        true ↔ _
    constructor
    · intro hcheck
      refine ⟨T.map Char.toNat, rfl, fun b hb => ?_⟩
      have h2 := List.all_eq_true.mp hcheck b hb
      simp only [pyIntEqBytes, Bool.or_false, Bool.not_eq_true', Bool.or_eq_false_iff,
        decide_eq_false_iff_not, not_lt] at h2
      exact ⟨h2.1, h2.2, by omega⟩
    · rintro ⟨bs, hbs, hbound⟩
      cases hbs
      refine List.all_eq_true.mpr fun b hb => ?_
      have h2 := hbound b hb
      simp only [pyIntEqBytes, Bool.or_false, Bool.not_eq_true', Bool.or_eq_false_iff,
        decide_eq_false_iff_not, not_lt]
      exact ⟨h2.1, h2.2.1⟩
  · have henc : asciiEncode T = none := by rw [asciiEncode, if_neg hall]
    unfold is_safe_ascii
    rw [henc]
    simp

/-- C9 witness: `'A'` satisfies both sides at the concrete byte `65`. -/
theorem claim_C9_witness : is_safe_ascii ['A'] = true :=
  (claim_C9 ['A']).mpr ⟨[65], by decide, by decide⟩

/-- C7: `validate_range` raises `OutOfRange` exactly when the value is
required, present, and strictly outside the inclusive bounds; every
non-raising call returns the value unchanged (in particular it is a
pure pass-through when `optional` or the value is absent). -/
theorem claim_C7 (name : String) (value : Option Int) (minval maxval : Int)
    (optional : Bool) :
    ((∃ e, validate_range name value minval maxval optional = .error e) ↔
      optional = false ∧ ∃ v, value = some v ∧ (v < minval ∨ maxval < v)) ∧
    (∀ r, validate_range name value minval maxval optional = .ok r → r = value) := by
  unfold validate_range
  split_ifs with hg hv
  · obtain ⟨ho, hn⟩ := hg
    obtain ⟨v, rfl⟩ := Option.ne_none_iff_exists'.mp hn
    refine ⟨⟨fun _ => ⟨ho, v, rfl, by simpa using hv⟩, fun _ => ⟨_, rfl⟩⟩,
      fun r hr => by cases hr⟩
  · obtain ⟨ho, hn⟩ := hg
    obtain ⟨v, rfl⟩ := Option.ne_none_iff_exists'.mp hn
    refine ⟨⟨(fun ⟨e, he⟩ => by cases he), fun ⟨_, v', hv', hb⟩ => ?_⟩,
      fun r hr => by cases hr; rfl⟩
    cases hv'
    exact absurd hb (by simpa using hv)
  · refine ⟨⟨(fun ⟨e, he⟩ => by cases he), fun ⟨ho, v, hv', hb⟩ => ?_⟩,
      fun r hr => by cases hr; rfl⟩
    exact absurd ⟨ho, by simp [hv']⟩ hg

/-- C7 witness: `validate_range('x', -1, 0, 5)` raises `OutOfRange`. -/
theorem claim_C7_witness :
    ∃ e, validate_range ("x") (some (-1)) 0 5 false = .error e :=
  (claim_C7 "x" (some (-1)) 0 5 false).1.mpr ⟨rfl, -1, rfl, Or.inl (by decide)⟩

/-- C6: `validate_range_bytesize` ignores its `signed` flag entirely
(signed two's-complement bounds either way), and at `size = 1`:
`127` passes, `128` fails with `OutOfRange`, and `0` with
`allow_zero=False` fails with `ZeroNotAllowed`. -/
theorem claim_C6 :
    (∀ (name : String) (value : Option Int) (size : Nat) (optional allow_zero s1 s2 : Bool),
      validate_range_bytesize name value size optional allow_zero s1 =
        validate_range_bytesize name value size optional allow_zero s2) ∧
    validate_range_bytesize ("x") (some 127) 1 false true false = .ok (some 127) ∧
    validate_range_bytesize ("x") (some 128) 1 false true false =
      .error ("x is out of range: supplied=128, min=-128, max=127") ∧
    validate_range_bytesize ("x") (some 0) 1 false false false =
      .error ("x may not be zero") :=
  ⟨fun _ _ _ _ _ _ _ => rfl, rfl, rfl, rfl⟩

/-- C10: `__eq__` is total and true exactly when the classes are
related by `isinstance` in either direction and the attribute
dictionaries are equal (so an unrelated-typed operand compares `False`
rather than raising), and `__ne__` is its boolean negation. -/
theorem claim_C10 {K V : Type} [DecidableEq V] (issub : K → K → Bool)
    (x y : PyObj K V) :
    (opEq issub x y = true ↔
      (issub x.cls y.cls || issub y.cls x.cls) = true ∧ x.dict = y.dict) ∧
    opNe issub x y = !(opEq issub x y) := by
  refine ⟨?_, rfl⟩
  unfold opEq
  split_ifs with h
  · simp [h]
  · simp [h]

/-- C10 witness: two objects of the same class with equal dictionaries
compare equal. -/
theorem claim_C10_witness :
    opEq (fun a b => a == b) (⟨0, 7⟩ : PyObj Nat Nat) ⟨0, 7⟩ = true :=
  (claim_C10 (fun a b => a == b) ⟨0, 7⟩ ⟨0, 7⟩).1.mpr ⟨by decide, rfl⟩

/-- Deserializing a well-formed frame `version :: length :: payload`
recovers the formatted address and leaves no remainder. -/
theorem deserialize_address_cons (lib : AddressLib) (v : Nat) (p : List Nat) :
    deserialize_address lib (v :: p.length :: p) = .ok (lib.format v p, []) := by
  unfold deserialize_address
  rw [if_neg (by simp only [List.length_cons]; omega)]
  rw [if_neg (by
    show ¬(v :: p.length :: p).length < (p.length :: p).headD 0 + 2
    simp only [List.length_cons, List.headD_cons]
    omega)]
  have htake : ((v :: p.length :: p).drop 2).take
      (((v :: p.length :: p).drop 1).headD 0) = p := by
    show p.take p.length = p
    exact List.take_length p
  have hdrop : (v :: p.length :: p).drop
      (2 + ((v :: p.length :: p).drop 1).headD 0) = [] := by
    show (v :: p.length :: p).drop (2 + p.length) = []
    rw [← List.drop_drop]
    show p.drop p.length = []
    exact List.drop_length p
  rw [htake, hdrop]
  rfl

/-- C4: for an address the external validator accepts, with the
library's documented round-trip contract (`format` inverts `parse`) and
in-contract sizes (version and payload length fit in one byte each),
serializing then deserializing recovers the address exactly with no
bytes remaining. -/
theorem claim_C4 (lib : AddressLib) (A : String)
    (hvalid : lib.is_valid A = true)
    (hround : lib.format (lib.parse A).1 (lib.parse A).2 = A)
    (hver : (lib.parse A).1 < 256) (hlen : (lib.parse A).2.length < 256) :
    ∃ bs, serialize_address lib A = some bs ∧
      deserialize_address lib bs = .ok (A, []) := by
  refine ⟨(lib.parse A).1 :: (lib.parse A).2.length :: (lib.parse A).2, ?_, ?_⟩
  · unfold serialize_address intToBytes1
    rw [if_pos hver, if_pos hlen]
    rfl
  · rw [deserialize_address_cons, hround]

/-- C4 witness: the toy library round-trips the address `"addr"`. -/
theorem claim_C4_witness :
    ∃ bs, serialize_address sampleLib ("addr") = some bs ∧
      deserialize_address sampleLib bs = .ok ("addr", []) :=
  claim_C4 sampleLib ("addr") rfl rfl (by decide) (by decide)

/-- C5: `deserialize_address` fails with `TruncatedData` exactly when
the buffer is shorter than two bytes or shorter than `length + 2` for
the length read from the second byte; otherwise it returns the address
formatted from the version byte and the length-delimited payload,
together with exactly the suffix after the payload. -/
theorem claim_C5 (lib : AddressLib) (data : List Nat) :
    ((∃ e, deserialize_address lib data = .error e) ↔
      data.length < 2 ∨ data.length < (data.drop 1).headD 0 + 2) ∧
    (¬data.length < 2 → ¬data.length < (data.drop 1).headD 0 + 2 →
      deserialize_address lib data =
        .ok (lib.format (data.headD 0) ((data.drop 2).take ((data.drop 1).headD 0)),
          data.drop (2 + (data.drop 1).headD 0))) := by
  unfold deserialize_address
  split_ifs with h1 h2
  · exact ⟨⟨fun _ => Or.inl h1, fun _ => ⟨_, rfl⟩⟩, fun h1' _ => absurd h1 h1'⟩
  · exact ⟨⟨fun _ => Or.inr h2, fun _ => ⟨_, rfl⟩⟩, fun _ h2' => absurd h2 h2'⟩
  · refine ⟨⟨(fun ⟨e, he⟩ => by cases he), ?_⟩, fun _ _ => rfl⟩
    rintro (h | h)
    · exact absurd h h1
    · exact absurd h h2

/-- C5 witness: a buffer announcing a 5-byte payload but carrying only
2 payload bytes fails with `TruncatedData`. -/
theorem claim_C5_witness :
    ∃ e, deserialize_address sampleLib [0, 5, 65, 66] = .error e :=
  (claim_C5 sampleLib [0, 5, 65, 66]).1.mpr (by decide)

/-- Characterization of the tier-1 `src` validator. -/
theorem accepts_src1_iff (u : UriRef) :
    src_uri_validator_1.accepts u = true ↔
      (∃ s, u.scheme = some s ∧ (s = "http" ∨ s = "https")) ∧
        u.host.isSome = true ∧ u.path.isSome = true := by
  obtain ⟨sc, ho, pa⟩ := u
  cases sc <;> cases ho <;> cases pa <;>
    simp [Validator.accepts, src_uri_validator_1]

/-- Characterization of the tier-2 `src` validator. -/
theorem accepts_src2_iff (u : UriRef) :
    src_uri_validator_2.accepts u = true ↔
      u.scheme = some ("data") ∧ u.path.isSome = true := by
  obtain ⟨sc, ho, pa⟩ := u
  cases sc <;> cases ho <;> cases pa <;>
    simp [Validator.accepts, src_uri_validator_2]

/-- C8: both URI checks require `is_safe_ascii` first and try tier 2
only when tier 1 fails; scheme+host passes `is_link_uri` with no scheme
restriction; scheme `"ftp"` with a path passes `is_link_uri` yet fails
`is_src_uri`; and `is_src_uri` accepts only scheme ∈ {http, https} with
host and path, or scheme `data` with path. -/
theorem claim_C8 (uriRef : List Char → UriRef) (text : List Char) :
    (is_safe_ascii text = false →
      is_link_uri uriRef text = false ∧ is_src_uri uriRef text = false) ∧
    (is_safe_ascii text = true → (uriRef text).scheme.isSome = true →
      (uriRef text).host.isSome = true → is_link_uri uriRef text = true) ∧
    (is_safe_ascii text = true → (uriRef text).scheme = some ("ftp") →
      (uriRef text).path.isSome = true →
      is_link_uri uriRef text = true ∧ is_src_uri uriRef text = false) ∧
    (is_src_uri uriRef text = true →
      is_safe_ascii text = true ∧
      ((∃ s, (uriRef text).scheme = some s ∧ (s = "http" ∨ s = "https") ∧
          (uriRef text).host.isSome = true ∧ (uriRef text).path.isSome = true) ∨
        ((uriRef text).scheme = some ("data") ∧ (uriRef text).path.isSome = true))) := by
  refine ⟨?_, ?_, ?_, ?_⟩
  · intro hfalse
    constructor
    · unfold is_link_uri
      rw [if_pos hfalse]
    · unfold is_src_uri
      rw [if_pos hfalse]
  · intro htrue hs hh
    have hacc : link_uri_validator_1.accepts (uriRef text) = true := by
      simp [Validator.accepts, link_uri_validator_1, hs, hh]
    unfold is_link_uri
    rw [if_neg (by simp [htrue]), if_pos hacc]
  · intro htrue hs hp
    have hs' : (uriRef text).scheme.isSome = true := by rw [hs]; rfl
    constructor
    · unfold is_link_uri
      rw [if_neg (by simp [htrue])]
      by_cases h1 : link_uri_validator_1.accepts (uriRef text) = true
      · rw [if_pos h1]
      · rw [if_neg h1,
          if_pos (by simp [Validator.accepts, link_uri_validator_2, hs', hp])]
    · have hacc1 : src_uri_validator_1.accepts (uriRef text) = false := by
        simp [Validator.accepts, src_uri_validator_1, hs]
      have hacc2 : src_uri_validator_2.accepts (uriRef text) = false := by
        simp [Validator.accepts, src_uri_validator_2, hs]
      unfold is_src_uri
      rw [if_neg (by simp [htrue]), if_neg (by simp [hacc1]),
        if_neg (by simp [hacc2])]
  · intro hsrc
    have htrue : is_safe_ascii text = true := by
      cases h : is_safe_ascii text
      · unfold is_src_uri at hsrc
        rw [if_pos h] at hsrc
        cases hsrc
      · rfl
    refine ⟨htrue, ?_⟩
    unfold is_src_uri at hsrc
    rw [if_neg (by simp [htrue])] at hsrc
    by_cases h1 : src_uri_validator_1.accepts (uriRef text) = true
    · left
      obtain ⟨⟨s, hs2, hdisj⟩, hh, hp⟩ := (accepts_src1_iff _).mp h1
      exact ⟨s, hs2, hdisj, hh, hp⟩
    · rw [if_neg h1] at hsrc
      by_cases h2 : src_uri_validator_2.accepts (uriRef text) = true
      · right
        exact (accepts_src2_iff _).mp h2
      · rw [if_neg h2] at hsrc
        cases hsrc

/-- C8 witness: the ASCII-safe text `"ftp:/x"`, parsed with only scheme
and path present and scheme `"ftp"`, passes `is_link_uri` but fails
`is_src_uri`. -/
theorem claim_C8_witness :
    is_link_uri uriRefFtp ['f', 't', 'p', ':', '/', 'x'] = true ∧
    is_src_uri uriRefFtp ['f', 't', 'p', ':', '/', 'x'] = false :=
  (claim_C8 uriRefFtp ['f', 't', 'p', ':', '/', 'x']).2.2.1 (by decide) rfl rfl

end Orbit
